import Mathlib

set_option autoImplicit false

namespace NifiRs

/-!
# Verification of the schema correction & extraction pipeline (`build.rs`)

Shallow embedding of the build script of `nifi-rs`.  The script:

1. parses the OpenAPI document into a mutable `serde_json::Value`;
2. `apply_all_patches` resolves `components.schemas` (panicking if absent)
   and runs the single registered patch
   `patch_parameter_provider_dto_properties` on it;
3. re-resolves `components.schemas` and deserializes it into a
   `BTreeMap<String, schemars::schema::Schema>` (the extraction result);
4. hands it to the type generator (external, out of scope here).

JSON values are modelled by the inductive `Json` below; objects are ordered
association lists, where the list order is the key order of the source
document.  In-place mutation in Rust becomes functional update here: each
patch returns the (possibly partially) rewritten tree together with an
optional error, so that the state of the tree at the moment a `panic!`
(`expect`) fires is captured exactly.
-/

/-- A JSON tree, mirroring `serde_json::Value`.  Numbers are modelled as
integers (no claim touches arithmetic); object fields are an ordered
association list whose order is the key order of the source text. -/
inductive Json : Type where
  | null : Json
  | bool (b : Bool) : Json
  | num (n : Int) : Json
  | str (s : String) : Json
  | arr (elems : List Json) : Json
  | obj (fields : List (String × Json)) : Json
deriving Repr

mutual

/-- Boolean structural equality on `Json` (nested, so written by hand). -/
def Json.beq : Json → Json → Bool
  | .null, .null => true
  | .bool a, .bool b => a == b
  | .num a, .num b => a == b
  | .str a, .str b => a == b
  | .arr xs, .arr ys => Json.beqList xs ys
  | .obj xs, .obj ys => Json.beqFields xs ys
  | _, _ => false

/-- Elementwise `Json.beq` on lists. -/
def Json.beqList : List Json → List Json → Bool
  | [], [] => true
  | x :: xs, y :: ys => Json.beq x y && Json.beqList xs ys
  | _, _ => false

/-- Elementwise `Json.beq` on field lists (keys compared with `==`). -/
def Json.beqFields : List (String × Json) → List (String × Json) → Bool
  | [], [] => true
  | (k, v) :: xs, (k', v') :: ys => k == k' && Json.beq v v' && Json.beqFields xs ys
  | _, _ => false

end

mutual

theorem Json.eq_of_beq : ∀ {a b : Json}, Json.beq a b = true → a = b
  | .null, .null, _ => rfl
  | .bool _, .bool _, h => by simpa [Json.beq] using h
  | .num _, .num _, h => by simpa [Json.beq] using h
  | .str _, .str _, h => by simpa [Json.beq] using h
  | .arr xs, .arr ys, h => by
      simp only [Json.beq] at h
      exact congrArg Json.arr (Json.eq_of_beqList h)
  | .obj xs, .obj ys, h => by
      simp only [Json.beq] at h
      exact congrArg Json.obj (Json.eq_of_beqFields h)

theorem Json.eq_of_beqList : ∀ {xs ys : List Json}, Json.beqList xs ys = true → xs = ys
  | [], [], _ => rfl
  | x :: xs, y :: ys, h => by
      simp only [Json.beqList, Bool.and_eq_true] at h
      exact congrArg₂ List.cons (Json.eq_of_beq h.1) (Json.eq_of_beqList h.2)

theorem Json.eq_of_beqFields :
    ∀ {xs ys : List (String × Json)}, Json.beqFields xs ys = true → xs = ys
  | [], [], _ => rfl
  | (k, v) :: xs, (k', v') :: ys, h => by
      simp only [Json.beqFields, Bool.and_eq_true] at h
      have hk : k = k' := by simpa using h.1.1
      have hv : v = v' := Json.eq_of_beq h.1.2
      rw [hk, hv, Json.eq_of_beqFields h.2]

end

mutual

theorem Json.beq_refl : ∀ (a : Json), Json.beq a a = true
  | .null => rfl
  | .bool _ => by simp [Json.beq]
  | .num _ => by simp [Json.beq]
  | .str _ => by simp [Json.beq]
  | .arr xs => by simp only [Json.beq]; exact Json.beqList_refl xs
  | .obj xs => by simp only [Json.beq]; exact Json.beqFields_refl xs

theorem Json.beqList_refl : ∀ (xs : List Json), Json.beqList xs xs = true
  | [] => rfl
  | x :: xs => by
      simp only [Json.beqList, Bool.and_eq_true]
      exact ⟨Json.beq_refl x, Json.beqList_refl xs⟩

theorem Json.beqFields_refl : ∀ (xs : List (String × Json)), Json.beqFields xs xs = true
  | [] => rfl
  | (k, v) :: xs => by
      simp only [Json.beqFields, Bool.and_eq_true]
      exact ⟨⟨by simp, Json.beq_refl v⟩, Json.beqFields_refl xs⟩

end

instance : DecidableEq Json := fun a b =>
  if h : Json.beq a b = true then .isTrue (Json.eq_of_beq h)
  else .isFalse (fun he => h (he ▸ Json.beq_refl a))

namespace Json

/-- `Value::get` / `Value::get_mut` for a string key: on an object, the value
of the first field with that key; on every other variant, `None`. -/
def get (j : Json) (k : String) : Option Json :=
  match j with
  | .obj fields => fields.lookup k
  | _ => none

/-- `serde_json::Map::insert` on the field list: if the key is present its
value is replaced in place, otherwise the new field is appended.  (The
position of a freshly inserted key inside the mutated object is a
representation detail of the map backing; no claim depends on it.) -/
def insertField (k : String) (v : Json) : List (String × Json) → List (String × Json)
  | [] => [(k, v)]
  | (k', v') :: rest =>
      if k' == k then (k, v) :: rest
      else (k', v') :: insertField k v rest

/-- Writing a value back through a `get_mut` handle: replace the value of an
existing key of an object.  On a non-object this is the identity (the code
only reaches it after `get_mut` succeeded, which implies an object). -/
def setKey (j : Json) (k : String) (v : Json) : Json :=
  match j with
  | .obj fields => .obj (insertField k v fields)
  | _ => j

/-- `Value::as_object_mut`: the field list of an object, `None` otherwise. -/
def asObj : Json → Option (List (String × Json))
  | .obj fields => some fields
  | _ => none

/-- Iterated `get`: navigate a path of keys from the root. -/
def getPath (j : Json) : List String → Option Json
  | [] => some j
  | k :: ks =>
    match j.get k with
    | some v => v.getPath ks
    | none => none

theorem get_obj (l : List (String × Json)) (k : String) :
    (Json.obj l).get k = l.lookup k := rfl

theorem getPath_nil (j : Json) : j.getPath [] = some j := rfl

theorem getPath_cons {j v : Json} {k : String} (ks : List String)
    (h : j.get k = some v) : j.getPath (k :: ks) = v.getPath ks := by
  simp [Json.getPath, h]

theorem get_eq_some_obj {j : Json} {k : String} {v : Json} (h : j.get k = some v) :
    ∃ l, j = .obj l := by
  cases j with
  | obj l => exact ⟨l, rfl⟩
  | null => simp [Json.get] at h
  | bool b => simp [Json.get] at h
  | num n => simp [Json.get] at h
  | str s => simp [Json.get] at h
  | arr xs => simp [Json.get] at h

theorem lookup_cons_self {β : Type} (k : String) (v : β) (rest : List (String × β)) :
    List.lookup k ((k, v) :: rest) = some v := by
  simp [List.lookup_cons]

theorem lookup_cons_ne {β : Type} {k k' : String} (v : β) (rest : List (String × β))
    (h : k ≠ k') : List.lookup k ((k', v) :: rest) = List.lookup k rest := by
  simp [List.lookup_cons, beq_false_of_ne h]

theorem lookup_insertField_self (k : String) (v : Json) (l : List (String × Json)) :
    (insertField k v l).lookup k = some v := by
  induction l with
  | nil => simp [insertField, lookup_cons_self]
  | cons kv rest ih =>
      obtain ⟨k', v'⟩ := kv
      by_cases h : k' = k
      · simp [insertField, h, lookup_cons_self]
      · rw [insertField, if_neg (by simpa using h), lookup_cons_ne _ _ (Ne.symm h), ih]

theorem lookup_insertField_ne (k k' : String) (v : Json) (l : List (String × Json))
    (h : k' ≠ k) : (insertField k v l).lookup k' = l.lookup k' := by
  induction l with
  | nil => simp [insertField, lookup_cons_ne _ _ h]
  | cons kv rest ih =>
      obtain ⟨k'', v''⟩ := kv
      by_cases h2 : k'' = k
      · subst h2
        rw [insertField, if_pos (by simp), lookup_cons_ne _ _ h, lookup_cons_ne _ _ h]
      · rw [insertField, if_neg (by simpa using h2)]
        by_cases h3 : k' = k''
        · subst h3; rw [lookup_cons_self, lookup_cons_self]
        · rw [lookup_cons_ne _ _ h3, lookup_cons_ne _ _ h3, ih]

theorem insertField_lookup_eq {k : String} {v : Json} {l : List (String × Json)}
    (h : l.lookup k = some v) : insertField k v l = l := by
  induction l with
  | nil => simp at h
  | cons kv rest ih =>
      obtain ⟨k', v'⟩ := kv
      by_cases h2 : k' = k
      · subst h2; rw [lookup_cons_self] at h
        obtain rfl : v' = v := by injection h
        simp [insertField]
      · rw [lookup_cons_ne _ _ (Ne.symm h2)] at h
        simp [insertField, h2, ih h]

theorem insertField_insertField (k : String) (v v' : Json) (l : List (String × Json)) :
    insertField k v (insertField k v' l) = insertField k v l := by
  induction l with
  | nil => simp [insertField]
  | cons kv rest ih =>
      obtain ⟨k'', v''⟩ := kv
      by_cases h : k'' = k
      · simp [insertField, h]
      · simp [insertField, h, ih]

theorem map_fst_insertField_of_mem (k : String) (v : Json) (l : List (String × Json))
    (h : k ∈ l.map Prod.fst) :
    (insertField k v l).map Prod.fst = l.map Prod.fst := by
  induction l with
  | nil => simp at h
  | cons kv rest ih =>
      obtain ⟨k', v'⟩ := kv
      by_cases h2 : k' = k
      · simp [insertField, h2]
      · have h3 : k ∈ rest.map Prod.fst := by
          simp only [List.map_cons, List.mem_cons] at h
          rcases h with h4 | h4
          · exact absurd h4.symm h2
          · exact h4
        simp [insertField, h2, ih h3]

theorem get_setKey_self {j : Json} {k : String} {w : Json} (v : Json)
    (h : j.get k = some w) : (j.setKey k v).get k = some v := by
  obtain ⟨l, rfl⟩ := get_eq_some_obj h
  simp [setKey, get_obj, lookup_insertField_self]

theorem get_setKey_ne (j : Json) (k k' : String) (v : Json) (h : k' ≠ k) :
    (j.setKey k v).get k' = j.get k' := by
  cases j <;> simp [setKey, get, lookup_insertField_ne _ _ _ _ h]

theorem setKey_eq_self {j : Json} {k : String} {v : Json} (h : j.get k = some v) :
    j.setKey k v = j := by
  obtain ⟨l, rfl⟩ := get_eq_some_obj h
  simp [Json.get] at h
  simp [setKey, insertField_lookup_eq h]

end Json

/-- The `expect` / panic sites of the build script, one constructor per
format string, carrying exactly the names interpolated into the message. -/
inductive PatchError : Type where
  /-- `"La especificación no tiene 'components.schemas'"` -/
  | missingSection : PatchError
  /-- `"FATAL: No se encontró el esquema '{}'"` -/
  | missingSchema (schemaName : String) : PatchError
  /-- `"FATAL: El DTO '{}' no tiene un mapa 'properties'"` -/
  | missingPropertiesMap (schemaName : String) : PatchError
  /-- `"FATAL: El DTO '{}' no tiene un campo '{}'"` -/
  | missingField (schemaName fieldName : String) : PatchError
  /-- `"FATAL: El campo '{}' no es un objeto JSON"` -/
  | fieldNotObject (fieldName : String) : PatchError
  /-- `"FATAL: El campo '{}' no tiene 'additionalProperties'. ¿Es un mapa?"` -/
  | missingAdditionalProperties (fieldName : String) : PatchError
  /-- `"FATAL: 'additionalProperties' no es un objeto JSON"` -/
  | additionalPropertiesNotObject : PatchError
deriving DecidableEq, Repr

/-- The guard `add_props_obj.contains_key("type") && add_props_obj["type"] == "string"`:
indexing a map returns `Null` for an absent key, so the conjunction holds
exactly when the `"type"` key is present with value `Value::String("string")`. -/
def typeIsStringLit (apFields : List (String × Json)) : Bool :=
  match apFields.lookup "type" with
  | some (.str s) => s == "string"
  | _ => false

/-- The rewrite of the `additionalProperties` object (`Parche B`):
if it has a `"type"` key whose value is exactly the JSON string `"string"`,
replace it by the array `["string", "null"]`; otherwise insert
`"nullable": true`. -/
def patchAddProps (apFields : List (String × Json)) : List (String × Json) :=
  if typeIsStringLit apFields then
    Json.insertField "type" (.arr [.str "string", .str "null"]) apFields
  else
    Json.insertField "nullable" (.bool true) apFields

/-- `patch_parameter_provider_dto_properties`: navigate
`schemas → "ParameterProviderDTO" → "properties" → "properties"`, insert
`"nullable": true` on that field, then rewrite its `additionalProperties`
child.  Returns the tree as it stands when the function returns or panics
(`expect`), plus the panic, if any: the `"nullable": true` insertion
(`Parche A`) happens *before* the `additionalProperties` lookups, so a
panic there leaves a partially patched tree. -/
def patch_parameter_provider_dto_properties (schemas : Json) :
    Json × Option PatchError :=
  match schemas.get "ParameterProviderDTO" with
  | none => (schemas, some (.missingSchema "ParameterProviderDTO"))
  | some dto =>
    match dto.get "properties" with
    | none => (schemas, some (.missingPropertiesMap "ParameterProviderDTO"))
    | some propsMap =>
      match propsMap.get "properties" with
      | none => (schemas, some (.missingField "ParameterProviderDTO" "properties"))
      | some field =>
        match field with
        | .obj fieldFields =>
          -- Parche A: the field itself is marked nullable (in place).
          let fieldFields1 := Json.insertField "nullable" (.bool true) fieldFields
          -- Write the mutated field back through the get_mut chain.
          let writeBack (ff : List (String × Json)) : Json :=
            schemas.setKey "ParameterProviderDTO"
              (dto.setKey "properties"
                (propsMap.setKey "properties" (.obj ff)))
          match fieldFields1.lookup "additionalProperties" with
          | none =>
              (writeBack fieldFields1, some (.missingAdditionalProperties "properties"))
          | some addProps =>
            match addProps with
            | .obj apFields =>
                (writeBack (Json.insertField "additionalProperties"
                    (.obj (patchAddProps apFields)) fieldFields1), none)
            | _ => (writeBack fieldFields1, some .additionalPropertiesNotObject)
        | _ => (schemas, some (.fieldNotObject "properties"))

/-- `apply_all_patches`: resolve `components.schemas` (panic
`missingSection` if either step fails), run the single registered patch on
it in place, and return the whole document as it stands, plus the panic, if
any. -/
def apply_all_patches (spec_value : Json) : Json × Option PatchError :=
  match spec_value.get "components" with
  | none => (spec_value, some .missingSection)
  | some comps =>
    match comps.get "schemas" with
    | none => (spec_value, some .missingSection)
    | some schemas =>
      let r := patch_parameter_provider_dto_properties schemas
      (spec_value.setKey "components" (comps.setKey "schemas" r.1), r.2)

/-- One insertion into a `BTreeMap<String, Schema>`, modelled on a sorted
association list: keys are kept in strictly increasing lexicographic order
(the `Ord` of a Rust `String` is byte-lexicographic, which for valid UTF-8
is the codepoint-lexicographic order on the character list used here), and
an equal key replaces the stored value. -/
def btInsert (k : String) (v : Json) : List (String × Json) → List (String × Json)
  | [] => [(k, v)]
  | (k', v') :: rest =>
      if k.data < k'.data then (k, v) :: (k', v') :: rest
      else if k = k' then (k, v) :: rest
      else (k', v') :: btInsert k v rest

/-- The model cast into `schemars::schema::Schema`: the top-level dispatch
of the untagged enum (`Bool` or `SchemaObject`) — booleans and objects
pass, everything else fails.  This over-approximates the real
deserialization on objects whose recognized fields are ill-typed (for
example a numeric `"type"`), which `SchemaObject` rejects; every value
that really deserializes does satisfy this predicate.  Where the exact
extension of the cast matters, the theorems quantify over an abstract
cast predicate instead (see `extractDefinitionsWith`). -/
def castsToSchema : Json → Bool
  | .bool _ => true
  | .obj _ => true
  | _ => false

/-- The panic message of step 4 of `main`: the `expect` text, followed by
the `serde` error for a value matching no variant of the untagged enum.
Neither part mentions the key of the offending entry — `serde_json::from_value`
carries no path information. -/
def schemaCastErrorMsg : String :=
  "Error al deserializar 'components.schemas' en BTreeMap<String, Schema>: data did not match any variant of untagged enum Schema"

/-- The `expect` message of step 3 of `main` (navigation to
`components.schemas` before extraction). -/
def missingSchemasMsg : String :=
  "La especificación no contiene 'components.schemas'"

/-- `serde` "invalid type" error: `components.schemas` is not an object at
all, so it cannot deserialize into a map. -/
def notAMapMsg : String :=
  "Error al deserializar 'components.schemas' en BTreeMap<String, Schema>: invalid type"

/-- Deserializing the entries of the `components.schemas` object into a
`BTreeMap<String, Schema>`, with the per-entry cast kept abstract:
entries are visited in document order and inserted into the sorted map;
the first entry whose value does not satisfy `cast` aborts the whole
deserialization with the fixed untagged-enum error message (an untagged
enum swallows the variant errors and always reports the same constant
text) — no partial map escapes.  `cast` stands for "the value deserializes
into `schemars::schema::Schema`"; its exact extension (how `SchemaObject`
validates its recognized fields) is external library behavior that is not
re-modelled here, so theorems over this function quantify over `cast`. -/
def extractDefinitionsWith (cast : Json → Bool) (acc : List (String × Json)) :
    List (String × Json) → Except String (List (String × Json))
  | [] => .ok acc
  | (k, v) :: rest =>
      if cast v then extractDefinitionsWith cast (btInsert k v acc) rest
      else .error schemaCastErrorMsg

/-- `extractDefinitionsWith` at the model cast `castsToSchema` (the
untagged dispatch: booleans and objects pass).  This concrete instance
makes the pipeline executable; `castsToSchema` over-approximates the real
cast on objects with ill-typed recognized fields, which is why the C8
theorems are stated over `extractDefinitionsWith` with `cast` abstract. -/
def extractDefinitions (acc : List (String × Json)) :
    List (String × Json) → Except String (List (String × Json))
  | [] => .ok acc
  | (k, v) :: rest =>
      if castsToSchema v then extractDefinitions (btInsert k v acc) rest
      else .error schemaCastErrorMsg

/-- Steps 3–4 of `main`: re-resolve `components.schemas` on the (patched)
document and deserialize it into the `BTreeMap<String, Schema>` of
definitions handed to the type generator. -/
def definitions (spec_value : Json) : Except String (List (String × Json)) :=
  match spec_value.get "components" with
  | none => .error missingSchemasMsg
  | some comps =>
    match comps.get "schemas" with
    | none => .error missingSchemasMsg
    | some schemas =>
      match schemas with
      | .obj kvs => extractDefinitions [] kvs
      | _ => .error notAMapMsg

/-- A fatal build error: either a panic inside the patch engine, or a
deserialization failure in the extraction step. -/
inductive BuildError : Type where
  | patchErr (e : PatchError) : BuildError
  | castErr (msg : String) : BuildError
deriving DecidableEq, Repr

/-- The pipeline of `main` up to the mapping handed to the type generator:
parse (already done: the input is a `Json`), `apply_all_patches`, then
extract `definitions`.  Any error halts the build before the type
generator runs and before any source text is emitted, so an `.error`
result means no output mapping and no generated file. -/
def pipeline (spec_value : Json) : Except BuildError (List (String × Json)) :=
  let r := apply_all_patches spec_value
  match r.2 with
  | some e => .error (.patchErr e)
  | none =>
    match definitions r.1 with
    | .error m => .error (.castErr m)
    | .ok defs => .ok defs

/-! ## Concrete documents used by witnesses and counterexamples -/

/-- The real target shape: an `additionalProperties` object declaring
`"type": "string"`. -/
def apStringObj : List (String × Json) := [("type", .str "string")]

/-- A target field that is a string map, as in the real specification. -/
def goodField : Json := .obj [("additionalProperties", .obj apStringObj)]

/-- A minimal document whose patch target is `field`. -/
def specWith (field : Json) : Json :=
  .obj [("components", .obj [("schemas", .obj [("ParameterProviderDTO",
    .obj [("properties", .obj [("properties", field)])])])])]

/-- A minimal schemas object whose patch target is `field`. -/
def schemasWith (field : Json) : Json :=
  .obj [("ParameterProviderDTO", .obj [("properties", .obj [("properties", field)])])]

/-- The tree after Parche A alone: `"nullable": true` inserted into the
target field, written back along the navigation path.  This is the state a
failure at the additionalProperties steps leaves behind. -/
def afterParcheA (schemas dto pm : Json) (ff : List (String × Json)) : Json :=
  schemas.setKey "ParameterProviderDTO" (dto.setKey "properties"
    (pm.setKey "properties" (.obj (Json.insertField "nullable" (.bool true) ff))))

/-- A node matching the "structural matcher" pattern of the specification:
object-typed, with a string-typed additionalProperties child. -/
def matchingNode : Json :=
  .obj [("type", .str "object"),
        ("additionalProperties", .obj [("type", .str "string")])]

/-- A document whose patch target is present (so the pipeline succeeds) and
which nests a second matching node inside another schema. -/
def c3doc : Json :=
  .obj [("components", .obj [("schemas", .obj [
    ("ParameterProviderDTO", .obj [("properties", .obj [("properties", goodField)])]),
    ("Other", .obj [("properties", .obj [("inner", matchingNode)])])])])]

/-- The Parche-B fallback input of C9: `"type": ["string"]`. -/
def apArrayObj : List (String × Json) := [("type", .arr [.str "string"])]

/-- Schemas listed in source (definition) order: the patch target first,
then a schema named `"A"` that sorts before it. -/
def c2schemasList : List (String × Json) :=
  [("ParameterProviderDTO", .obj [("properties", .obj [("properties", goodField)])]),
   ("A", .obj [])]

/-- A valid document whose `components.schemas` keys are NOT alphabetically
ordered. -/
def c2doc : Json := .obj [("components", .obj [("schemas", .obj c2schemasList)])]

/-- A document that patches fine but whose schemas hold one entry
(`"ZZZOffender"`) that is neither a boolean nor an object, so the
extraction cast fails. -/
def c8doc : Json :=
  .obj [("components", .obj [("schemas", .obj
    [("ParameterProviderDTO", .obj [("properties", .obj [("properties", goodField)])]),
     ("ZZZOffender", .num 3)])])]

/-! ## Helper lemmas about the patch -/

/-- A successful navigation chain fully determines the output of the
targeted patch: the field gets `"nullable": true`, its
`additionalProperties` child is rewritten by `patchAddProps`, and the
result is written back along the navigation path. -/
theorem patch_success_eq {schemas dto pm : Json} {ff ap : List (String × Json)}
    (h1 : schemas.get "ParameterProviderDTO" = some dto)
    (h2 : dto.get "properties" = some pm)
    (h3 : pm.get "properties" = some (.obj ff))
    (h4 : ff.lookup "additionalProperties" = some (.obj ap)) :
    patch_parameter_provider_dto_properties schemas =
      (schemas.setKey "ParameterProviderDTO" (dto.setKey "properties"
        (pm.setKey "properties" (.obj (Json.insertField "additionalProperties"
          (.obj (patchAddProps ap)) (Json.insertField "nullable" (.bool true) ff))))),
       none) := by
  have hne : ("additionalProperties" : String) ≠ "nullable" := by decide
  have h4' : (Json.insertField "nullable" (.bool true) ff).lookup "additionalProperties"
      = some (.obj ap) := by
    rw [Json.lookup_insertField_ne _ _ _ _ hne, h4]
  simp [patch_parameter_provider_dto_properties, h1, h2, h3, h4']

/-- If the `"type"` key of the additional-properties object holds anything
but the exact JSON string `"string"`, the guard of Parche B is false. -/
theorem typeIsStringLit_eq_false {ap : List (String × Json)} {t : Json}
    (h5 : ap.lookup "type" = some t) (h6 : t ≠ .str "string") :
    typeIsStringLit ap = false := by
  unfold typeIsStringLit
  rw [h5]
  cases t with
  | str s =>
      have : s ≠ "string" := fun hs => h6 (by rw [hs])
      simp [this]
  | null => rfl
  | bool b => rfl
  | num n => rfl
  | arr xs => rfl
  | obj l => rfl

/-! ## C4 -/

/-- C4: for every input document in which the targeted patch's full path
resolves (schema `ParameterProviderDTO`, its properties map, its field
`"properties"`, and that field's `additionalProperties` object all
present), the patch succeeds, marks the target field `"nullable": true`,
and: if the additionalProperties child declares `"type": "string"` it
replaces that type by `["string", "null"]`; otherwise it inserts
`"nullable": true` into the child. -/
theorem C4_targeted_patch_success {schemas dto pm : Json} {ff ap : List (String × Json)}
    (h1 : schemas.get "ParameterProviderDTO" = some dto)
    (h2 : dto.get "properties" = some pm)
    (h3 : pm.get "properties" = some (.obj ff))
    (h4 : ff.lookup "additionalProperties" = some (.obj ap)) :
    (patch_parameter_provider_dto_properties schemas).2 = none ∧
    ∃ ff', (patch_parameter_provider_dto_properties schemas).1.getPath
        ["ParameterProviderDTO", "properties", "properties"] = some (.obj ff') ∧
      ff'.lookup "nullable" = some (.bool true) ∧
      ff'.lookup "additionalProperties" = some (.obj (patchAddProps ap)) ∧
      (typeIsStringLit ap = true →
        (patchAddProps ap).lookup "type" = some (.arr [.str "string", .str "null"])) ∧
      (typeIsStringLit ap = false →
        (patchAddProps ap).lookup "nullable" = some (.bool true)) := by
  rw [patch_success_eq h1 h2 h3 h4]
  refine ⟨rfl, Json.insertField "additionalProperties" (.obj (patchAddProps ap))
    (Json.insertField "nullable" (.bool true) ff), ?_, ?_, ?_, ?_, ?_⟩
  · rw [Json.getPath_cons _ (Json.get_setKey_self _ h1),
        Json.getPath_cons _ (Json.get_setKey_self _ h2),
        Json.getPath_cons _ (Json.get_setKey_self _ h3), Json.getPath_nil]
  · rw [Json.lookup_insertField_ne _ _ _ _ (by decide),
        Json.lookup_insertField_self]
  · exact Json.lookup_insertField_self _ _ _
  · intro h5
    unfold patchAddProps
    rw [h5]
    simp [Json.lookup_insertField_self]
  · intro h5
    unfold patchAddProps
    rw [h5]
    simp [Json.lookup_insertField_self]

/-- Witness for C4 at the real target shape (`"type": "string"`). -/
theorem C4_witness :
    (patch_parameter_provider_dto_properties (schemasWith goodField)).2 = none ∧
    ∃ ff', (patch_parameter_provider_dto_properties (schemasWith goodField)).1.getPath
        ["ParameterProviderDTO", "properties", "properties"] = some (.obj ff') ∧
      ff'.lookup "nullable" = some (.bool true) ∧
      ff'.lookup "additionalProperties" = some (.obj (patchAddProps apStringObj)) ∧
      (typeIsStringLit apStringObj = true →
        (patchAddProps apStringObj).lookup "type"
          = some (.arr [.str "string", .str "null"])) ∧
      (typeIsStringLit apStringObj = false →
        (patchAddProps apStringObj).lookup "nullable" = some (.bool true)) :=
  C4_targeted_patch_success rfl rfl rfl rfl

/-! ## C9 -/

/-- C9: the type-set rewrite triggers only on the exact JSON string
`"string"`: when the additionalProperties object has a `"type"` key whose
value is anything else (for example the one-element array `["string"]`),
the patch leaves that `"type"` value unchanged and inserts
`"nullable": true` into the additionalProperties object instead. -/
theorem C9_fallback_keeps_type {schemas dto pm : Json} {ff ap : List (String × Json)}
    {t : Json}
    (h1 : schemas.get "ParameterProviderDTO" = some dto)
    (h2 : dto.get "properties" = some pm)
    (h3 : pm.get "properties" = some (.obj ff))
    (h4 : ff.lookup "additionalProperties" = some (.obj ap))
    (h5 : ap.lookup "type" = some t) (h6 : t ≠ .str "string") :
    (patch_parameter_provider_dto_properties schemas).2 = none ∧
    ∃ ff', (patch_parameter_provider_dto_properties schemas).1.getPath
        ["ParameterProviderDTO", "properties", "properties"] = some (.obj ff') ∧
      ff'.lookup "additionalProperties" = some (.obj (patchAddProps ap)) ∧
      (patchAddProps ap).lookup "type" = some t ∧
      (patchAddProps ap).lookup "nullable" = some (.bool true) := by
  have hfalse : typeIsStringLit ap = false := typeIsStringLit_eq_false h5 h6
  have hpatch : patchAddProps ap = Json.insertField "nullable" (.bool true) ap := by
    unfold patchAddProps
    rw [hfalse]
    simp
  rw [patch_success_eq h1 h2 h3 h4]
  refine ⟨rfl, Json.insertField "additionalProperties" (.obj (patchAddProps ap))
    (Json.insertField "nullable" (.bool true) ff), ?_, ?_, ?_, ?_⟩
  · rw [Json.getPath_cons _ (Json.get_setKey_self _ h1),
        Json.getPath_cons _ (Json.get_setKey_self _ h2),
        Json.getPath_cons _ (Json.get_setKey_self _ h3), Json.getPath_nil]
  · exact Json.lookup_insertField_self _ _ _
  · rw [hpatch, Json.lookup_insertField_ne _ _ _ _ (by decide), h5]
  · rw [hpatch, Json.lookup_insertField_self]

/-- Witness for C9 at `"type": ["string"]`. -/
theorem C9_witness :
    (patch_parameter_provider_dto_properties
      (schemasWith (.obj [("additionalProperties", .obj apArrayObj)]))).2 = none ∧
    ∃ ff', (patch_parameter_provider_dto_properties
        (schemasWith (.obj [("additionalProperties", .obj apArrayObj)]))).1.getPath
        ["ParameterProviderDTO", "properties", "properties"] = some (.obj ff') ∧
      ff'.lookup "additionalProperties" = some (.obj (patchAddProps apArrayObj)) ∧
      (patchAddProps apArrayObj).lookup "type" = some (.arr [.str "string"]) ∧
      (patchAddProps apArrayObj).lookup "nullable" = some (.bool true) :=
  C9_fallback_keeps_type rfl rfl rfl rfl rfl (by decide)

/-! ## C3 -/

/-- Counterexample to C3: `c3doc` holds a node of the matching shape
(object type, string-typed additionalProperties) nested inside the schema
`Other`; `apply_all_patches` succeeds on `c3doc`, yet that node is returned
unchanged — in particular it does not carry `nullable: true` — because the
code patches only the one fixed path and never walks the tree. -/
theorem C3_counterexample :
    matchingNode.get "type" = some (.str "object") ∧
    matchingNode.getPath ["additionalProperties", "type"] = some (.str "string") ∧
    (apply_all_patches c3doc).2 = none ∧
    (apply_all_patches c3doc).1.getPath
      ["components", "schemas", "Other", "properties", "inner"] = some matchingNode ∧
    matchingNode.get "nullable" = none :=
  ⟨rfl, rfl, rfl, rfl, rfl⟩

/-- C3 as amended: only the node at the fixed path
`components.schemas.ParameterProviderDTO.properties.properties` is
patched — it gains `nullable: true` and (its additionalProperties child
declaring `"type": "string"`) that child's type becomes
`["string","null"]`, with every other attribute of both objects
unchanged — while every sibling key at every level of the navigation path
keeps its exact subtree.  In particular a node of the matching shape
anywhere off the navigation path lies inside one of those sibling
subtrees, so it is left byte-for-byte unchanged; the nodes on the path
change only by containing the rewritten target. -/
theorem C3_amended_fixed_path_only {schemas dto pm : Json} {ff ap : List (String × Json)}
    (h1 : schemas.get "ParameterProviderDTO" = some dto)
    (h2 : dto.get "properties" = some pm)
    (h3 : pm.get "properties" = some (.obj ff))
    (h4 : ff.lookup "additionalProperties" = some (.obj ap))
    (h5 : typeIsStringLit ap = true) :
    (patch_parameter_provider_dto_properties schemas).2 = none ∧
    (∀ k, k ≠ "ParameterProviderDTO" →
      (patch_parameter_provider_dto_properties schemas).1.get k = schemas.get k) ∧
    ∃ dto', (patch_parameter_provider_dto_properties schemas).1.get "ParameterProviderDTO"
        = some dto' ∧
      (∀ k, k ≠ "properties" → dto'.get k = dto.get k) ∧
      ∃ pm', dto'.get "properties" = some pm' ∧
        (∀ k, k ≠ "properties" → pm'.get k = pm.get k) ∧
        ∃ ff', pm'.get "properties" = some (.obj ff') ∧
          ff'.lookup "nullable" = some (.bool true) ∧
          (∀ k, k ≠ "nullable" → k ≠ "additionalProperties" →
            ff'.lookup k = ff.lookup k) ∧
          ff'.lookup "additionalProperties"
            = some (.obj (Json.insertField "type"
                (.arr [.str "string", .str "null"]) ap)) ∧
          (∀ k, k ≠ "type" →
            (Json.insertField "type" (.arr [.str "string", .str "null"]) ap).lookup k
              = ap.lookup k) := by
  have hpap : patchAddProps ap
      = Json.insertField "type" (.arr [.str "string", .str "null"]) ap := by
    unfold patchAddProps
    rw [h5]
    simp
  rw [patch_success_eq h1 h2 h3 h4, hpap]
  refine ⟨rfl, ?_, _, Json.get_setKey_self _ h1, ?_, _, Json.get_setKey_self _ h2, ?_,
    _, Json.get_setKey_self _ h3, ?_, ?_, ?_, ?_⟩
  · intro k hk
    exact Json.get_setKey_ne _ _ _ _ hk
  · intro k hk
    exact Json.get_setKey_ne _ _ _ _ hk
  · intro k hk
    exact Json.get_setKey_ne _ _ _ _ hk
  · rw [Json.lookup_insertField_ne _ _ _ _ (by decide),
        Json.lookup_insertField_self]
  · intro k hk1 hk2
    rw [Json.lookup_insertField_ne _ _ _ _ hk2, Json.lookup_insertField_ne _ _ _ _ hk1]
  · exact Json.lookup_insertField_self _ _ _
  · intro k hk
    exact Json.lookup_insertField_ne _ _ _ _ hk

/-- Witness for the amended C3 at the real target shape. -/
theorem C3_amended_witness :
    (patch_parameter_provider_dto_properties (schemasWith goodField)).2 = none ∧
    (∀ k, k ≠ "ParameterProviderDTO" →
      (patch_parameter_provider_dto_properties (schemasWith goodField)).1.get k
        = (schemasWith goodField).get k) ∧
    ∃ dto', (patch_parameter_provider_dto_properties
        (schemasWith goodField)).1.get "ParameterProviderDTO" = some dto' ∧
      (∀ k, k ≠ "properties" →
        dto'.get k = (Json.obj [("properties",
          Json.obj [("properties", goodField)])]).get k) ∧
      ∃ pm', dto'.get "properties" = some pm' ∧
        (∀ k, k ≠ "properties" →
          pm'.get k = (Json.obj [("properties", goodField)]).get k) ∧
        ∃ ff', pm'.get "properties" = some (.obj ff') ∧
          ff'.lookup "nullable" = some (.bool true) ∧
          (∀ k, k ≠ "nullable" → k ≠ "additionalProperties" →
            ff'.lookup k
              = List.lookup k [("additionalProperties", .obj apStringObj)]) ∧
          ff'.lookup "additionalProperties"
            = some (.obj (Json.insertField "type"
                (.arr [.str "string", .str "null"]) apStringObj)) ∧
          (∀ k, k ≠ "type" →
            (Json.insertField "type" (.arr [.str "string", .str "null"])
                apStringObj).lookup k
              = List.lookup k apStringObj) :=
  C3_amended_fixed_path_only rfl rfl rfl rfl rfl

/-! ## C10 -/

/-- C10: on every input on which `apply_all_patches` succeeds, the only
node it modifies is `components.schemas.ParameterProviderDTO.properties.properties`
(and its `additionalProperties` child): every sibling key at every level of
the path, every other entry of `components.schemas`, and every part of the
document outside `components` is returned unchanged. -/
theorem C10_patch_frame {spec comps schemas dto pm : Json} {ff ap : List (String × Json)}
    (h0 : spec.get "components" = some comps)
    (hs : comps.get "schemas" = some schemas)
    (h1 : schemas.get "ParameterProviderDTO" = some dto)
    (h2 : dto.get "properties" = some pm)
    (h3 : pm.get "properties" = some (.obj ff))
    (h4 : ff.lookup "additionalProperties" = some (.obj ap)) :
    (apply_all_patches spec).2 = none ∧
    (∀ k, k ≠ "components" → (apply_all_patches spec).1.get k = spec.get k) ∧
    ∃ comps', (apply_all_patches spec).1.get "components" = some comps' ∧
      (∀ k, k ≠ "schemas" → comps'.get k = comps.get k) ∧
      ∃ schemas', comps'.get "schemas" = some schemas' ∧
        (∀ k, k ≠ "ParameterProviderDTO" → schemas'.get k = schemas.get k) ∧
        ∃ dto', schemas'.get "ParameterProviderDTO" = some dto' ∧
          (∀ k, k ≠ "properties" → dto'.get k = dto.get k) ∧
          ∃ pm', dto'.get "properties" = some pm' ∧
            (∀ k, k ≠ "properties" → pm'.get k = pm.get k) ∧
            ∃ ff', pm'.get "properties" = some (.obj ff') ∧
              (∀ k, k ≠ "nullable" → k ≠ "additionalProperties" →
                ff'.lookup k = ff.lookup k) := by
  have happ : apply_all_patches spec =
      (spec.setKey "components" (comps.setKey "schemas"
        (schemas.setKey "ParameterProviderDTO" (dto.setKey "properties"
          (pm.setKey "properties" (.obj (Json.insertField "additionalProperties"
            (.obj (patchAddProps ap)) (Json.insertField "nullable" (.bool true) ff))))))),
       none) := by
    simp [apply_all_patches, h0, hs, patch_success_eq h1 h2 h3 h4]
  rw [happ]
  refine ⟨rfl, ?_, _, Json.get_setKey_self _ h0, ?_, _, Json.get_setKey_self _ hs, ?_,
    _, Json.get_setKey_self _ h1, ?_, _, Json.get_setKey_self _ h2, ?_,
    _, Json.get_setKey_self _ h3, ?_⟩
  · intro k hk
    exact Json.get_setKey_ne _ _ _ _ hk
  · intro k hk
    exact Json.get_setKey_ne _ _ _ _ hk
  · intro k hk
    exact Json.get_setKey_ne _ _ _ _ hk
  · intro k hk
    exact Json.get_setKey_ne _ _ _ _ hk
  · intro k hk
    exact Json.get_setKey_ne _ _ _ _ hk
  · intro k hk1 hk2
    rw [Json.lookup_insertField_ne _ _ _ _ hk2, Json.lookup_insertField_ne _ _ _ _ hk1]

/-- Witness for C10 at the minimal good document. -/
theorem C10_witness :
    (apply_all_patches (specWith goodField)).2 = none ∧
    (∀ k, k ≠ "components" →
      (apply_all_patches (specWith goodField)).1.get k = (specWith goodField).get k) ∧
    ∃ comps', (apply_all_patches (specWith goodField)).1.get "components" = some comps' ∧
      (∀ k, k ≠ "schemas" →
        comps'.get k = (Json.obj [("schemas", schemasWith goodField)]).get k) ∧
      ∃ schemas', comps'.get "schemas" = some schemas' ∧
        (∀ k, k ≠ "ParameterProviderDTO" →
          schemas'.get k = (schemasWith goodField).get k) ∧
        ∃ dto', schemas'.get "ParameterProviderDTO" = some dto' ∧
          (∀ k, k ≠ "properties" →
            dto'.get k = (Json.obj [("properties",
              Json.obj [("properties", goodField)])]).get k) ∧
          ∃ pm', dto'.get "properties" = some pm' ∧
            (∀ k, k ≠ "properties" →
              pm'.get k = (Json.obj [("properties", goodField)]).get k) ∧
            ∃ ff', pm'.get "properties" = some (.obj ff') ∧
              (∀ k, k ≠ "nullable" → k ≠ "additionalProperties" →
                ff'.lookup k = List.lookup k [("additionalProperties", .obj apStringObj)]) :=
  C10_patch_frame rfl rfl rfl rfl rfl rfl

/-! ## Failure-case characterizations of the patch -/

theorem patch_missing_schema {schemas : Json}
    (h : schemas.get "ParameterProviderDTO" = none) :
    patch_parameter_provider_dto_properties schemas
      = (schemas, some (.missingSchema "ParameterProviderDTO")) := by
  simp [patch_parameter_provider_dto_properties, h]

theorem patch_missing_props_map {schemas dto : Json}
    (h1 : schemas.get "ParameterProviderDTO" = some dto)
    (h : dto.get "properties" = none) :
    patch_parameter_provider_dto_properties schemas
      = (schemas, some (.missingPropertiesMap "ParameterProviderDTO")) := by
  simp [patch_parameter_provider_dto_properties, h1, h]

theorem patch_missing_field {schemas dto pm : Json}
    (h1 : schemas.get "ParameterProviderDTO" = some dto)
    (h2 : dto.get "properties" = some pm)
    (h : pm.get "properties" = none) :
    patch_parameter_provider_dto_properties schemas
      = (schemas, some (.missingField "ParameterProviderDTO" "properties")) := by
  simp [patch_parameter_provider_dto_properties, h1, h2, h]

theorem patch_field_not_obj {schemas dto pm field : Json}
    (h1 : schemas.get "ParameterProviderDTO" = some dto)
    (h2 : dto.get "properties" = some pm)
    (h3 : pm.get "properties" = some field)
    (h : field.asObj = none) :
    patch_parameter_provider_dto_properties schemas
      = (schemas, some (.fieldNotObject "properties")) := by
  cases field with
  | obj l => simp [Json.asObj] at h
  | null => simp [patch_parameter_provider_dto_properties, h1, h2, h3]
  | bool b => simp [patch_parameter_provider_dto_properties, h1, h2, h3]
  | num n => simp [patch_parameter_provider_dto_properties, h1, h2, h3]
  | str str => simp [patch_parameter_provider_dto_properties, h1, h2, h3]
  | arr xs => simp [patch_parameter_provider_dto_properties, h1, h2, h3]

theorem patch_missing_add_props {schemas dto pm : Json} {ff : List (String × Json)}
    (h1 : schemas.get "ParameterProviderDTO" = some dto)
    (h2 : dto.get "properties" = some pm)
    (h3 : pm.get "properties" = some (.obj ff))
    (h : ff.lookup "additionalProperties" = none) :
    patch_parameter_provider_dto_properties schemas
      = (afterParcheA schemas dto pm ff,
         some (.missingAdditionalProperties "properties")) := by
  have h' : (Json.insertField "nullable" (.bool true) ff).lookup "additionalProperties"
      = none := by
    rw [Json.lookup_insertField_ne _ _ _ _ (by decide), h]
  simp [patch_parameter_provider_dto_properties, afterParcheA, h1, h2, h3, h']

theorem patch_add_props_not_obj {schemas dto pm addProps : Json}
    {ff : List (String × Json)}
    (h1 : schemas.get "ParameterProviderDTO" = some dto)
    (h2 : dto.get "properties" = some pm)
    (h3 : pm.get "properties" = some (.obj ff))
    (h4 : ff.lookup "additionalProperties" = some addProps)
    (h : addProps.asObj = none) :
    patch_parameter_provider_dto_properties schemas
      = (afterParcheA schemas dto pm ff, some .additionalPropertiesNotObject) := by
  have h4' : (Json.insertField "nullable" (.bool true) ff).lookup "additionalProperties"
      = some addProps := by
    rw [Json.lookup_insertField_ne _ _ _ _ (by decide), h4]
  cases addProps with
  | obj l => simp [Json.asObj] at h
  | null => simp [patch_parameter_provider_dto_properties, afterParcheA, h1, h2, h3, h4']
  | bool b => simp [patch_parameter_provider_dto_properties, afterParcheA, h1, h2, h3, h4']
  | num n => simp [patch_parameter_provider_dto_properties, afterParcheA, h1, h2, h3, h4']
  | str str => simp [patch_parameter_provider_dto_properties, afterParcheA, h1, h2, h3, h4']
  | arr xs => simp [patch_parameter_provider_dto_properties, afterParcheA, h1, h2, h3, h4']

/-- `apply_all_patches` once `components.schemas` resolves: the patched
schemas object is written back and the patch error is passed through. -/
theorem apply_of_resolved {spec comps schemas : Json}
    (h0 : spec.get "components" = some comps)
    (hs : comps.get "schemas" = some schemas) :
    apply_all_patches spec =
      (spec.setKey "components" (comps.setKey "schemas"
        (patch_parameter_provider_dto_properties schemas).1),
       (patch_parameter_provider_dto_properties schemas).2) := by
  simp [apply_all_patches, h0, hs]

/-- A patch panic becomes a fatal pipeline error: no mapping is produced
and the build halts before the generator runs. -/
theorem pipeline_patch_error {spec comps schemas t : Json} {e : PatchError}
    (h0 : spec.get "components" = some comps)
    (hs : comps.get "schemas" = some schemas)
    (hp : patch_parameter_provider_dto_properties schemas = (t, some e)) :
    pipeline spec = .error (.patchErr e) := by
  simp [pipeline, apply_of_resolved h0 hs, hp]

/-! ## C5 -/

/-- Counterexample to C5: on a document whose target field exists but has
no `additionalProperties` key, the patch aborts — yet the tree at that
moment is NOT the input tree: Parche A has already inserted
`"nullable": true` into the target field before the failing lookup. -/
theorem C5_counterexample :
    (patch_parameter_provider_dto_properties (schemasWith (.obj [("x", .num 1)]))).2
      = some (.missingAdditionalProperties "properties") ∧
    (patch_parameter_provider_dto_properties (schemasWith (.obj [("x", .num 1)]))).1
      ≠ schemasWith (.obj [("x", .num 1)]) :=
  ⟨rfl, by decide⟩

/-- C5 as amended: failures while resolving the navigation chain (missing
schema, missing properties map, missing field, field not an object) leave
the schemas tree unchanged; failures at the additionalProperties steps
(key missing, or its value not an object) abort only after
`"nullable": true` has been inserted into the target field — exactly the
state `afterParcheA`, the patch's only partial change. -/
theorem C5_amended_failure_states (schemas : Json) :
    (schemas.get "ParameterProviderDTO" = none →
      patch_parameter_provider_dto_properties schemas
        = (schemas, some (.missingSchema "ParameterProviderDTO"))) ∧
    (∀ dto, schemas.get "ParameterProviderDTO" = some dto →
      dto.get "properties" = none →
      patch_parameter_provider_dto_properties schemas
        = (schemas, some (.missingPropertiesMap "ParameterProviderDTO"))) ∧
    (∀ dto pm, schemas.get "ParameterProviderDTO" = some dto →
      dto.get "properties" = some pm → pm.get "properties" = none →
      patch_parameter_provider_dto_properties schemas
        = (schemas, some (.missingField "ParameterProviderDTO" "properties"))) ∧
    (∀ dto pm field, schemas.get "ParameterProviderDTO" = some dto →
      dto.get "properties" = some pm → pm.get "properties" = some field →
      field.asObj = none →
      patch_parameter_provider_dto_properties schemas
        = (schemas, some (.fieldNotObject "properties"))) ∧
    (∀ dto pm ff, schemas.get "ParameterProviderDTO" = some dto →
      dto.get "properties" = some pm → pm.get "properties" = some (.obj ff) →
      ff.lookup "additionalProperties" = none →
      patch_parameter_provider_dto_properties schemas
        = (afterParcheA schemas dto pm ff,
           some (.missingAdditionalProperties "properties"))) ∧
    (∀ dto pm ff addProps, schemas.get "ParameterProviderDTO" = some dto →
      dto.get "properties" = some pm → pm.get "properties" = some (.obj ff) →
      ff.lookup "additionalProperties" = some addProps → addProps.asObj = none →
      patch_parameter_provider_dto_properties schemas
        = (afterParcheA schemas dto pm ff, some .additionalPropertiesNotObject)) :=
  ⟨fun h => patch_missing_schema h,
   fun _ h1 h => patch_missing_props_map h1 h,
   fun _ _ h1 h2 h => patch_missing_field h1 h2 h,
   fun _ _ _ h1 h2 h3 h => patch_field_not_obj h1 h2 h3 h,
   fun _ _ _ h1 h2 h3 h => patch_missing_add_props h1 h2 h3 h,
   fun _ _ _ _ h1 h2 h3 h4 h => patch_add_props_not_obj h1 h2 h3 h4 h⟩

/-- Witness for the amended C5: a pure navigation failure (no schema at
all) leaves the tree untouched, and a missing-additionalProperties failure
leaves exactly the Parche-A state. -/
theorem C5_witness :
    patch_parameter_provider_dto_properties (.obj [])
      = (.obj [], some (.missingSchema "ParameterProviderDTO")) ∧
    patch_parameter_provider_dto_properties (schemasWith (.obj []))
      = (schemasWith (.obj [("nullable", .bool true)]),
         some (.missingAdditionalProperties "properties")) :=
  ⟨(C5_amended_failure_states (.obj [])).1 rfl,
   (C5_amended_failure_states (schemasWith (.obj []))).2.2.2.2.1 _ _ _ rfl rfl rfl rfl⟩

/-! ## C6 -/

/-- C6: for every input document lacking a required path segment of the
targeted patch (the named schema, its properties map, the named field, or
its additionalProperties child), the pipeline fails fatally with the panic
of the failed segment — each panic constructor carries the schema or field
name its message interpolates — and, being an `.error`, the run produces
no output mapping and no emitted source text. -/
theorem C6_missing_segment_fatal {spec comps schemas : Json}
    (h0 : spec.get "components" = some comps)
    (hs : comps.get "schemas" = some schemas) :
    (schemas.get "ParameterProviderDTO" = none →
      pipeline spec = .error (.patchErr (.missingSchema "ParameterProviderDTO"))) ∧
    (∀ dto, schemas.get "ParameterProviderDTO" = some dto →
      dto.get "properties" = none →
      pipeline spec
        = .error (.patchErr (.missingPropertiesMap "ParameterProviderDTO"))) ∧
    (∀ dto pm, schemas.get "ParameterProviderDTO" = some dto →
      dto.get "properties" = some pm → pm.get "properties" = none →
      pipeline spec
        = .error (.patchErr (.missingField "ParameterProviderDTO" "properties"))) ∧
    (∀ dto pm ff, schemas.get "ParameterProviderDTO" = some dto →
      dto.get "properties" = some pm → pm.get "properties" = some (.obj ff) →
      ff.lookup "additionalProperties" = none →
      pipeline spec
        = .error (.patchErr (.missingAdditionalProperties "properties"))) :=
  ⟨fun h => pipeline_patch_error h0 hs (patch_missing_schema h),
   fun _ h1 h => pipeline_patch_error h0 hs (patch_missing_props_map h1 h),
   fun _ _ h1 h2 h => pipeline_patch_error h0 hs (patch_missing_field h1 h2 h),
   fun _ _ _ h1 h2 h3 h =>
     pipeline_patch_error h0 hs (patch_missing_add_props h1 h2 h3 h)⟩

/-- Witness for C6: a document whose schemas object is empty. -/
theorem C6_witness :
    pipeline (.obj [("components", .obj [("schemas", .obj [])])])
      = .error (.patchErr (.missingSchema "ParameterProviderDTO")) :=
  (@C6_missing_segment_fatal (.obj [("components", .obj [("schemas", .obj [])])])
    (.obj [("schemas", .obj [])]) (.obj []) rfl rfl).1 rfl

/-! ## C7 -/

/-- C7: for every parsed document with no `components.schemas` object
(`components` absent or not resolvable to a `schemas` entry), the engine
fails with the missing-section panic before any patch runs — the tree it
leaves is the input itself — and the pipeline aborts with that error, so
no extraction and no output are produced. -/
theorem C7_missing_section_fatal (spec : Json)
    (h : spec.getPath ["components", "schemas"] = none) :
    apply_all_patches spec = (spec, some .missingSection) ∧
    pipeline spec = .error (.patchErr .missingSection) := by
  have happ : apply_all_patches spec = (spec, some .missingSection) := by
    cases h0 : spec.get "components" with
    | none => simp [apply_all_patches, h0]
    | some comps =>
        cases hs : comps.get "schemas" with
        | none => simp [apply_all_patches, h0, hs]
        | some schemas =>
            rw [Json.getPath_cons _ h0, Json.getPath_cons _ hs, Json.getPath_nil] at h
            exact absurd h (by simp)
  exact ⟨happ, by simp [pipeline, happ]⟩

/-- Witness for C7: the empty document. -/
theorem C7_witness :
    apply_all_patches (.obj []) = (.obj [], some .missingSection) ∧
    pipeline (.obj []) = .error (.patchErr .missingSection) :=
  C7_missing_section_fatal (.obj []) rfl

/-! ## C1 -/

/-- Inserting the `"nullable"` marker into an additional-properties object
does not change what its `"type"` key holds, so the Parche-B guard is
unchanged. -/
theorem typeIsStringLit_insertField_nullable (v : Json) (ap : List (String × Json)) :
    typeIsStringLit (Json.insertField "nullable" v ap) = typeIsStringLit ap := by
  unfold typeIsStringLit
  rw [Json.lookup_insertField_ne _ _ _ _ (by decide)]

/-- Counterexample to C1: on the real target shape (`"type": "string"`) the
pipeline is NOT idempotent.  The first application rewrites the type to
`["string", "null"]`; on the second application the guard
`type == "string"` is false, so the fallback inserts an extra
`"nullable": true` into the additionalProperties object. -/
theorem C1_counterexample :
    (apply_all_patches (specWith goodField)).2 = none ∧
    (apply_all_patches (apply_all_patches (specWith goodField)).1).2 = none ∧
    (apply_all_patches (apply_all_patches (specWith goodField)).1).1
      ≠ (apply_all_patches (specWith goodField)).1 :=
  ⟨rfl, rfl, by decide⟩

/-- C1 as amended: applying the patch list twice yields the same document
as applying it once on every succeeding input whose target
additionalProperties object does NOT declare the exact type `"string"`
(the fallback branch); on inputs that do declare it, the second
application differs by inserting `"nullable": true` into the
additionalProperties object, as the counterexample shows. -/
theorem C1_amended_idempotent_on_fallback {spec comps schemas dto pm : Json}
    {ff ap : List (String × Json)}
    (h0 : spec.get "components" = some comps)
    (hs : comps.get "schemas" = some schemas)
    (h1 : schemas.get "ParameterProviderDTO" = some dto)
    (h2 : dto.get "properties" = some pm)
    (h3 : pm.get "properties" = some (.obj ff))
    (h4 : ff.lookup "additionalProperties" = some (.obj ap))
    (h5 : typeIsStringLit ap = false) :
    (apply_all_patches spec).2 = none ∧
    apply_all_patches (apply_all_patches spec).1 = apply_all_patches spec := by
  have hpap : patchAddProps ap = Json.insertField "nullable" (.bool true) ap := by
    unfold patchAddProps
    rw [h5]
    simp
  -- names for the once-patched layers
  set ap1 := Json.insertField "nullable" (.bool true) ap with hap1
  set ff1 := Json.insertField "nullable" (.bool true) ff with hff1
  set ff2 := Json.insertField "additionalProperties" (.obj ap1) ff1 with hff2
  set pm1 := pm.setKey "properties" (.obj ff2) with hpm1
  set dto1 := dto.setKey "properties" pm1 with hdto1
  set schemas1 := schemas.setKey "ParameterProviderDTO" dto1 with hschemas1
  set comps1 := comps.setKey "schemas" schemas1 with hcomps1
  set spec1 := spec.setKey "components" comps1 with hspec1
  have hpatch1 : patch_parameter_provider_dto_properties schemas = (schemas1, none) := by
    rw [patch_success_eq h1 h2 h3 h4, hpap]
  have happ1 : apply_all_patches spec = (spec1, none) := by
    rw [apply_of_resolved h0 hs, hpatch1]
  -- the second run resolves the same chain on the patched layers
  have g0 : spec1.get "components" = some comps1 := Json.get_setKey_self _ h0
  have gs : comps1.get "schemas" = some schemas1 := Json.get_setKey_self _ hs
  have g1 : schemas1.get "ParameterProviderDTO" = some dto1 := Json.get_setKey_self _ h1
  have g2 : dto1.get "properties" = some pm1 := Json.get_setKey_self _ h2
  have g3 : pm1.get "properties" = some (.obj ff2) := Json.get_setKey_self _ h3
  have g4 : ff2.lookup "additionalProperties" = some (.obj ap1) :=
    Json.lookup_insertField_self _ _ _
  have g5 : typeIsStringLit ap1 = false := by
    rw [hap1, typeIsStringLit_insertField_nullable, h5]
  -- and every rewrite it performs is the identity there
  have e1 : patchAddProps ap1 = ap1 := by
    unfold patchAddProps
    rw [g5]
    simp [hap1, Json.insertField_insertField]
  have e2 : Json.insertField "nullable" (.bool true) ff2 = ff2 := by
    apply Json.insertField_lookup_eq
    rw [hff2, Json.lookup_insertField_ne _ _ _ _ (by decide), hff1,
        Json.lookup_insertField_self]
  have e3 : Json.insertField "additionalProperties" (.obj (patchAddProps ap1)) ff2
      = ff2 := by
    rw [e1]
    exact Json.insertField_lookup_eq g4
  have hpatch2 : patch_parameter_provider_dto_properties schemas1 = (schemas1, none) := by
    rw [patch_success_eq g1 g2 g3 g4, e2, e3]
    rw [Json.setKey_eq_self g3, Json.setKey_eq_self g2, Json.setKey_eq_self g1]
  have happ2 : apply_all_patches spec1 = (spec1, none) := by
    rw [apply_of_resolved g0 gs, hpatch2]
    rw [Json.setKey_eq_self gs, Json.setKey_eq_self g0]
  rw [happ1]
  exact ⟨rfl, happ2⟩

/-- Witness for the amended C1: target whose additionalProperties declares
`"type": ["string"]`, so the fallback branch runs both times. -/
theorem C1_witness :
    (apply_all_patches
      (specWith (.obj [("additionalProperties", .obj apArrayObj)]))).2 = none ∧
    apply_all_patches (apply_all_patches
      (specWith (.obj [("additionalProperties", .obj apArrayObj)]))).1
      = apply_all_patches (specWith (.obj [("additionalProperties", .obj apArrayObj)])) :=
  C1_amended_idempotent_on_fallback rfl rfl rfl rfl rfl rfl rfl

/-! ## Extraction lemmas (BTreeMap model) -/

/-- The character-list order used by `btInsert` is the `String` order. -/
theorem strLt_data {a b : String} : a.data < b.data ↔ a < b :=
  String.lt_iff_toList_lt.symm

theorem mem_map_fst_btInsert {x k : String} {v : Json} {l : List (String × Json)}
    (h : x ∈ (btInsert k v l).map Prod.fst) : x = k ∨ x ∈ l.map Prod.fst := by
  induction l with
  | nil => simpa [btInsert] using h
  | cons kv rest ih =>
      obtain ⟨k', v'⟩ := kv
      by_cases hlt : k.data < k'.data
      · simp only [btInsert, if_pos hlt] at h
        simpa using h
      · by_cases heq : k = k'
        · simp only [btInsert, if_neg hlt, if_pos heq] at h
          simp only [List.map_cons, List.mem_cons] at h ⊢
          tauto
        · simp only [btInsert, if_neg hlt, if_neg heq] at h
          simp only [List.map_cons, List.mem_cons] at h ⊢
          rcases h with h | h
          · tauto
          · rcases ih h with h' | h' <;> tauto

theorem btInsert_map_fst_perm (k : String) (v : Json) (l : List (String × Json))
    (h : k ∉ l.map Prod.fst) :
    ((btInsert k v l).map Prod.fst).Perm (k :: l.map Prod.fst) := by
  induction l with
  | nil => simp [btInsert]
  | cons kv rest ih =>
      obtain ⟨k', v'⟩ := kv
      simp only [List.map_cons, List.mem_cons] at h
      push_neg at h
      by_cases hlt : k.data < k'.data
      · rw [btInsert, if_pos hlt]
        simp
      · rw [btInsert, if_neg hlt, if_neg h.1]
        simp only [List.map_cons]
        exact ((ih h.2).cons k').trans (List.Perm.swap k k' _)

theorem btInsert_sorted (k : String) (v : Json) (l : List (String × Json))
    (h : (l.map Prod.fst).Sorted (· < ·)) :
    ((btInsert k v l).map Prod.fst).Sorted (· < ·) := by
  induction l with
  | nil => simp [btInsert]
  | cons kv rest ih =>
      obtain ⟨k', v'⟩ := kv
      simp only [List.map_cons, List.sorted_cons] at h
      by_cases hlt : k.data < k'.data
      · rw [btInsert, if_pos hlt]
        simp only [List.map_cons, List.sorted_cons]
        refine ⟨?_, h.1, h.2⟩
        intro b hb
        simp only [List.mem_cons] at hb
        rcases hb with rfl | hb
        · exact strLt_data.mp hlt
        · exact lt_trans (strLt_data.mp hlt) (h.1 b hb)
      · by_cases heq : k = k'
        · rw [btInsert, if_neg hlt, if_pos heq]
          simp only [List.map_cons, List.sorted_cons]
          exact ⟨fun b hb => heq ▸ h.1 b hb, h.2⟩
        · rw [btInsert, if_neg hlt, if_neg heq]
          simp only [List.map_cons, List.sorted_cons]
          refine ⟨?_, ih h.2⟩
          intro b hb
          rcases mem_map_fst_btInsert hb with rfl | hb
          · rcases lt_trichotomy b k' with h' | h' | h'
            · exact absurd (strLt_data.mpr h') hlt
            · exact absurd h' heq
            · exact h'
          · exact h.1 b hb

theorem extractDefinitionsWith_ok (cast : Json → Bool) (rest : List (String × Json)) :
    ∀ acc : List (String × Json),
    (∀ kv ∈ rest, cast kv.2 = true) →
    (acc.map Prod.fst ++ rest.map Prod.fst).Nodup →
    (acc.map Prod.fst).Sorted (· < ·) →
    ∃ m, extractDefinitionsWith cast acc rest = .ok m ∧
      (m.map Prod.fst).Perm (acc.map Prod.fst ++ rest.map Prod.fst) ∧
      (m.map Prod.fst).Sorted (· < ·) := by
  induction rest with
  | nil =>
      intro acc _ _ hsorted
      exact ⟨acc, rfl, by simp, hsorted⟩
  | cons kv rest' ih =>
      intro acc hcast hnd hsorted
      obtain ⟨k, v⟩ := kv
      have hv : cast v = true := hcast (k, v) (by simp)
      have hstep : extractDefinitionsWith cast acc ((k, v) :: rest')
          = extractDefinitionsWith cast (btInsert k v acc) rest' := by
        simp [extractDefinitionsWith, hv]
      have hknotacc : k ∉ acc.map Prod.fst := by
        rw [List.nodup_append] at hnd
        intro hmem
        exact hnd.2.2 hmem (by simp)
      have hperm0 : ((btInsert k v acc).map Prod.fst ++ rest'.map Prod.fst).Perm
          (acc.map Prod.fst ++ (k :: rest'.map Prod.fst)) :=
        ((btInsert_map_fst_perm k v acc hknotacc).append_right _).trans
          List.perm_middle.symm
      have hnd' : ((btInsert k v acc).map Prod.fst ++ rest'.map Prod.fst).Nodup :=
        hperm0.symm.nodup (by simpa using hnd)
      obtain ⟨m, hm, hmperm, hmsorted⟩ :=
        ih (btInsert k v acc) (fun kv hkv => hcast kv (by simp [hkv])) hnd'
          (btInsert_sorted k v acc hsorted)
      exact ⟨m, by rw [hstep, hm], hmperm.trans hperm0, hmsorted⟩

theorem extractDefinitionsWith_error (cast : Json → Bool) (rest : List (String × Json)) :
    ∀ acc : List (String × Json),
    (∃ kv ∈ rest, cast kv.2 = false) →
    extractDefinitionsWith cast acc rest = .error schemaCastErrorMsg := by
  induction rest with
  | nil =>
      intro acc h
      obtain ⟨kv, hmem, _⟩ := h
      exact absurd hmem (by simp)
  | cons kv rest' ih =>
      intro acc h
      obtain ⟨k, v⟩ := kv
      by_cases hv : cast v = true
      · have hrest : ∃ kv ∈ rest', cast kv.2 = false := by
          obtain ⟨kv', hmem, hbad⟩ := h
          rcases List.mem_cons.mp hmem with rfl | hmem'
          · exact absurd hv (by simp [hbad])
          · exact ⟨kv', hmem', hbad⟩
        have hrec := ih (btInsert k v acc) hrest
        simp [extractDefinitionsWith, hv, hrec]
      · simp [extractDefinitionsWith, hv]

/-- The concrete extraction of the pipeline is the parametric one at the
model cast. -/
theorem extractDefinitions_eq_with (rest : List (String × Json)) :
    ∀ acc : List (String × Json),
    extractDefinitions acc rest = extractDefinitionsWith castsToSchema acc rest := by
  induction rest with
  | nil => intro acc; rfl
  | cons kv rest' ih =>
      intro acc
      obtain ⟨k, v⟩ := kv
      by_cases hv : castsToSchema v = true
      · simp [extractDefinitions, extractDefinitionsWith, hv, ih]
      · simp [extractDefinitions, extractDefinitionsWith, hv]

theorem extractDefinitions_ok (rest : List (String × Json)) :
    ∀ acc : List (String × Json),
    (∀ kv ∈ rest, castsToSchema kv.2 = true) →
    (acc.map Prod.fst ++ rest.map Prod.fst).Nodup →
    (acc.map Prod.fst).Sorted (· < ·) →
    ∃ m, extractDefinitions acc rest = .ok m ∧
      (m.map Prod.fst).Perm (acc.map Prod.fst ++ rest.map Prod.fst) ∧
      (m.map Prod.fst).Sorted (· < ·) := by
  intro acc hcast hnd hsorted
  rw [extractDefinitions_eq_with]
  exact extractDefinitionsWith_ok castsToSchema rest acc hcast hnd hsorted

theorem extractDefinitions_error (rest : List (String × Json)) :
    ∀ acc : List (String × Json),
    (∃ kv ∈ rest, castsToSchema kv.2 = false) →
    extractDefinitions acc rest = .error schemaCastErrorMsg := by
  intro acc h
  rw [extractDefinitions_eq_with]
  exact extractDefinitionsWith_error castsToSchema rest acc h

/-- `definitions` once the navigation resolves to an object. -/
theorem definitions_resolved {spec comps : Json} {kvs : List (String × Json)}
    (h0 : spec.get "components" = some comps)
    (hs : comps.get "schemas" = some (.obj kvs)) :
    definitions spec = extractDefinitions [] kvs := by
  simp [definitions, h0, hs]

/-! ## C2 -/

/-- Counterexample to C2: the source key order of `c2doc` is
`["ParameterProviderDTO", "A"]`, the whole pipeline succeeds, and the
extraction result comes back in `BTreeMap` (lexicographic) order
`["A", "ParameterProviderDTO"]` — not the source order. -/
theorem C2_counterexample :
    c2doc.getPath ["components", "schemas"] = some (.obj c2schemasList) ∧
    c2schemasList.map Prod.fst = ["ParameterProviderDTO", "A"] ∧
    (pipeline c2doc).map (fun m => m.map Prod.fst) = .ok ["A", "ParameterProviderDTO"] ∧
    (["A", "ParameterProviderDTO"] : List String) ≠ ["ParameterProviderDTO", "A"] :=
  ⟨rfl, rfl, rfl, by decide⟩

/-- C2 as amended: the Extraction Result's key order is the strictly
increasing lexicographic order of the source document's schema names — a
deterministic order carrying exactly the source's keys (a permutation of
them), but equal to the source's own order only when that order is already
sorted. -/
theorem C2_amended_sorted_key_order {spec comps : Json} {kvs : List (String × Json)}
    (h0 : spec.get "components" = some comps)
    (hs : comps.get "schemas" = some (.obj kvs))
    (hnd : (kvs.map Prod.fst).Nodup)
    (hcast : ∀ kv ∈ kvs, castsToSchema kv.2 = true) :
    ∃ m, definitions spec = .ok m ∧
      (m.map Prod.fst).Perm (kvs.map Prod.fst) ∧
      (m.map Prod.fst).Sorted (· < ·) := by
  rw [definitions_resolved h0 hs]
  obtain ⟨m, hm, hperm, hsorted⟩ :=
    extractDefinitions_ok kvs [] hcast (by simpa using hnd) (by simp)
  exact ⟨m, hm, by simpa using hperm, hsorted⟩

/-- Witness for the amended C2 at `c2doc`. -/
theorem C2_witness :
    ∃ m, definitions c2doc = .ok m ∧
      (m.map Prod.fst).Perm (c2schemasList.map Prod.fst) ∧
      (m.map Prod.fst).Sorted (· < ·) :=
  C2_amended_sorted_key_order rfl rfl (by decide) (by decide)

/-! ## C8 -/

set_option maxRecDepth 4000

/-- Counterexample to C8: extraction aborts, but with the fixed
deserialization message — the name of the offending schema
(`"ZZZOffender"`) is not a substring of it (its character list is not an
infix of the message), so the error does not name the offender. -/
theorem C8_counterexample :
    pipeline c8doc = .error (.castErr schemaCastErrorMsg) ∧
    ¬ List.IsInfix "ZZZOffender".data schemaCastErrorMsg.data :=
  ⟨rfl, by decide⟩

/-- C8 as amended: the deserialization of the `components.schemas`
entries into `BTreeMap<String, Schema>` is all-or-nothing, whatever the
exact extension of the per-entry cast (`cast` abstracts "the value
deserializes into `schemars::schema::Schema`", whose `SchemaObject` field
validation is external library behavior): if every entry casts, the full
mapping is returned with exactly one entry per source schema (a
permutation of the source names, none dropped or duplicated); if any
entry fails to cast, extraction aborts with the fixed `SchemaCastError`
message — a constant that does not name the offending schema, since an
untagged enum always reports the same mismatch text and
`serde_json::from_value` carries no path information. -/
theorem C8_amended_all_or_nothing (cast : Json → Bool) (kvs : List (String × Json))
    (hnd : (kvs.map Prod.fst).Nodup) :
    ((∀ kv ∈ kvs, cast kv.2 = true) →
      ∃ m, extractDefinitionsWith cast [] kvs = .ok m ∧
        (m.map Prod.fst).Perm (kvs.map Prod.fst) ∧
        (m.map Prod.fst).Sorted (· < ·)) ∧
    ((∃ kv ∈ kvs, cast kv.2 = false) →
      extractDefinitionsWith cast [] kvs = .error schemaCastErrorMsg) := by
  constructor
  · intro hcast
    obtain ⟨m, hm, hperm, hsorted⟩ :=
      extractDefinitionsWith_ok cast kvs [] hcast (by simpa using hnd) (by simp)
    exact ⟨m, hm, by simpa using hperm, hsorted⟩
  · intro hbad
    exact extractDefinitionsWith_error cast kvs [] hbad

/-- Witness for the amended C8, at the model cast `castsToSchema` and the
schemas entries of `c8doc` (the failing side: the `"ZZZOffender"` entry is
a number, which fails the cast under every modelling of `Schema`
deserialization, since an untagged enum of bool and struct rejects it). -/
theorem C8_witness :
    extractDefinitionsWith castsToSchema []
      [("ParameterProviderDTO", .obj [("properties", .obj [("properties", goodField)])]),
       ("ZZZOffender", .num 3)]
      = .error schemaCastErrorMsg :=
  (C8_amended_all_or_nothing castsToSchema
    [("ParameterProviderDTO", .obj [("properties", .obj [("properties", goodField)])]),
     ("ZZZOffender", .num 3)]
    (by decide)).2 ⟨("ZZZOffender", .num 3), by decide, rfl⟩

end NifiRs
